import Mathlib

/-!
Verification of the affinity-sync reconciliation core: a shallow embedding of
`src/affinity_sync/writer.py` and `src/affinity_sync/clients/affinity_v1.py`,
with theorems settling the frozen claims about field resolution, field-value
diffing, and find-or-create entity resolution.

Remote and store interactions are modelled by passing the data those calls
would return as explicit inputs (environments), and by returning the sequence
of mutation operations the code would issue.  Fallible Python code is modelled
in `Except PyErr`; every raise site in the embedded code happens before any
mutation is issued, so an `Except.error` result corresponds to a run that
issued no mutations.
-/

namespace AffinitySync

/-- Errors raised by the embedded code.  Each constructor corresponds to one
raise site (or one Python runtime error) in the source. -/
inductive PyErr where
  /-- `ValueError('Invalid field value type - ...')` in `__check_field_value_type`. -/
  | invalidFieldType
  /-- `ValueError('Field value type mismatch - ...')` in `__check_field_value_type`. -/
  | typeMismatch
  /-- Python `TypeError: isinstance() argument 2 cannot be a parameterized generic`,
      raised by `isinstance(value, list[...])` when `FieldTypeMap` binds the
      declared type to a parameterized generic such as `list[int]`. -/
  | typeErrorParamGeneric
  /-- `ValueError('Field does not allow multiple values - ...')` in `__update_field`. -/
  | multiplicity
  /-- `FieldNotFoundError` in `__get_field`. -/
  | fieldNotFound
  /-- Python `AttributeError` (attribute access on `None` or on a plain value). -/
  | attributeError
  /-- Python `IndexError` (sequence index out of range). -/
  | indexError
  /-- `ValueError` raised by `int(...)` on a non-numeric string. -/
  | intParseError
  /-- `affinity_types.MultipleResults` raised by the search helpers. -/
  | multipleResults
  /-- `ValueError('Both cached_field_name and cached_filed_value must be provided ...')`. -/
  | cachedArgsError
  /-- `ValueError('Multiple entries found for entity - ...')` in
      `find_or_create_list_entry`. -/
  | multipleEntries
  deriving DecidableEq, Repr

/-- A Python runtime value as it appears in field values: `None`, strings,
ints, floats, bools, `datetime.datetime` and the `Location` pydantic model.
Floats are modelled at integral points only; no claim involves fractional
float arithmetic. -/
inductive Value where
  | none
  | str (s : String)
  | int (n : Int)
  | float (n : Int)
  | bool (b : Bool)
  | date (year month day hour minute second : Nat)
  | loc (street_address city state country : String)
  deriving DecidableEq, Repr

/-- Python `str.upper()` (ASCII; no claim involves non-ASCII case folding).
Implemented by structural recursion over the characters so that proofs can
evaluate it. -/
def pyUpper (s : String) : String := String.mk (s.data.map Char.toUpper)

/-- Python `str.lower()` (ASCII). -/
def pyLower (s : String) : String := String.mk (s.data.map Char.toLower)

/-- Python `str.strip()` (whitespace on both ends). -/
def pyStrip (s : String) : String :=
  String.mk (((s.data.dropWhile Char.isWhitespace).reverse.dropWhile
    Char.isWhitespace).reverse)

/-- Python `sep in s` for a single-character separator. -/
def pyContainsChar (sep : Char) (s : String) : Bool := s.data.contains sep

/-- Helper for `pySplitChar`: accumulate the current segment (reversed). -/
def splitCharAux (sep : Char) : List Char → List Char → List String
  | [], acc => [String.mk acc.reverse]
  | c :: rest, acc =>
    if c == sep then String.mk acc.reverse :: splitCharAux sep rest []
    else splitCharAux sep rest (c :: acc)

/-- Python `s.split(sep)` for a single-character separator: always returns
at least one segment, and one more segment per separator occurrence. -/
def pySplitChar (sep : Char) (s : String) : List String :=
  splitCharAux sep s.data []

/-- Decimal digits to a number; `none` on the empty list or a non-digit
(`int(...)` raises `ValueError` there). -/
def digitsToNat? : List Char → Option Nat
  | [] => Option.none
  | cs => go cs 0
where
  go : List Char → Nat → Option Nat
    | [], acc => some acc
    | c :: rest, acc =>
      if c.isDigit then go rest (acc * 10 + (c.toNat - '0'.toNat))
      else Option.none

/-- Python `int(s)` on the strings that occur here: an optional leading
minus followed by decimal digits (whitespace/underscore forms play no
role in any claim). -/
def pyToInt? (s : String) : Option Int :=
  match s.data with
  | '-' :: rest => (digitsToNat? rest).map (fun n => -(n : Int))
  | cs => (digitsToNat? cs).map Int.ofNat

/-- Python truthiness of a value: `None`, `''`, `0`, `0.0` and `False` are
falsy; `datetime` and pydantic `Location` objects are always truthy. -/
def Value.falsy : Value → Bool
  | .none => true
  | .str s => s.data.isEmpty
  | .int n => n == 0
  | .float n => n == 0
  | .bool b => !b
  | .date _ _ _ _ _ _ => false
  | .loc _ _ _ _ => false

/-- Numeric view used by Python `==`: bools are ints (`False == 0`,
`True == 1`) and ints compare equal to equal-valued floats. -/
def Value.toNum? : Value → Option Int
  | .int n => some n
  | .float n => some n
  | .bool b => some (if b then 1 else 0)
  | _ => Option.none

/-- Python `==` on values: numeric values compare by value across
int/float/bool; everything else compares structurally. -/
def pyEq (a b : Value) : Bool :=
  match a.toNum?, b.toNum? with
  | some x, some y => x == y
  | _, _ => a == b

/-- Python `x in xs` (membership by `==`). -/
def pyMem (x : Value) (xs : List Value) : Bool :=
  xs.any (fun e => pyEq e x)

/-- A caller-supplied field value before normalization: either a scalar
(`None` is the scalar `Value.none`) or a Python list of scalars. -/
inductive PyVal where
  | scalar (v : Value)
  | list (vs : List Value)
  deriving DecidableEq, Repr

/-- `isinstance(x, list)`. -/
def PyVal.isList : PyVal → Bool
  | .scalar _ => false
  | .list _ => true

/-- `x is None`. -/
def PyVal.isNone : PyVal → Bool
  | .scalar .none => true
  | _ => false

/-- `field_value if isinstance(field_value, list) else [field_value]`. -/
def PyVal.toEntryList : PyVal → List Value
  | .scalar v => [v]
  | .list vs => vs

/-- The runtime type objects stored in `affinity_v1_api.FieldTypeMap`:
plain classes and parameterized generics `list[...]`. -/
inductive PyType where
  | int
  | float
  | str
  | location
  | datetime
  | listOf (t : PyType)
  deriving DecidableEq, Repr

/-- `affinity_v1_api.FieldTypeMap`: declared field value type → runtime type. -/
def FieldTypeMap : String → Option PyType
  | "person" => some .int
  | "person-multi" => some (.listOf .int)
  | "company" => some .int
  | "company-multi" => some (.listOf .int)
  | "filterable-text" => some .str
  | "filterable-text-multi" => some (.listOf .str)
  | "number" => some .float
  | "number-multi" => some (.listOf .float)
  | "datetime" => some .datetime
  | "location" => some .location
  | "location-multi" => some (.listOf .location)
  | "text" => some .str
  | "ranked-dropdown" => some .str
  | "dropdown" => some .str
  | "dropdown-multi" => some (.listOf .str)
  | _ => Option.none

/-- `isinstance` of a scalar value against a plain (non-generic) class:
`bool` is a subclass of `int`, `int` is not an instance of `float`. -/
def scalarInstance : Value → PyType → Bool
  | .int _, .int => true
  | .bool _, .int => true
  | .float _, .float => true
  | .str _, .str => true
  | .loc _ _ _ _, .location => true
  | .date _ _ _ _ _ _, .datetime => true
  | _, _ => false

/-- Python `isinstance(value, ty)`: raises `TypeError` when `ty` is a
parameterized generic (`list[int]`, `list[str]`, ...), which is exactly what
every `-multi` entry of `FieldTypeMap` is. -/
def isinstanceE (v : PyVal) (t : PyType) : Except PyErr Bool :=
  match t with
  | .listOf _ => .error .typeErrorParamGeneric
  | _ => match v with
    | .list _ => .ok false
    | .scalar sv => .ok (scalarInstance sv t)

/-- `Writer.__check_field_value_type`: fails when the declared type is not in
`FieldTypeMap`, propagates the `isinstance` `TypeError` for parameterized
generics, and raises a mismatch `ValueError` for a non-`None` value of the
wrong runtime type. -/
def checkFieldValueType (value : PyVal) (value_type : String) : Except PyErr Unit :=
  match FieldTypeMap value_type with
  | Option.none => .error .invalidFieldType
  | some ty =>
    match isinstanceE value ty with
    | .error e => .error e
    | .ok inst => if !inst && !value.isNone then .error .typeMismatch else .ok ()

/-- v1 `Field` metadata (the fields the writer reads: `id`, `name`,
`allows_multiple`; `list_id`, `value_type`, `track_changes`,
`dropdown_options` are carried by the API model but never read here). -/
structure FieldV1 where
  id : Int
  name : String
  allows_multiple : Bool
  deriving DecidableEq, Repr

/-- v2 `FieldMetadata` (module `affinity_v2_api` is not under `src/`).
Modelled from the spec: the writer reads `affinity_id` (composite string id),
`name`, `type` (`'global'`/`'list'`/other) and `value_type` (a
`FieldTypeMap` key). -/
structure FieldMetaV2 where
  affinity_id : String
  name : String
  type : String
  value_type : String
  deriving DecidableEq, Repr

/-- v1 `FieldValue` row (audit metadata `created_at`, `updated_at`,
`value_type`, `entity_type` are never read by the writer and are omitted). -/
structure FieldValue where
  id : Int
  field_id : Int
  list_entry_id : Option Int
  entity_id : Int
  value : Value
  deriving DecidableEq, Repr

/-- A resolved field: the v2 metadata paired with
`v1_fields.get(v1_id)` (which may be `None`). -/
abbrev ResolvedField := FieldMetaV2 × Option FieldV1

/-- A field catalog (`__fields` / `get_list_fields` result): a Python dict
keyed by upper-cased name.  Insertion prepends, lookup takes the first hit,
so a later insert shadows an earlier one exactly as `out[k] = v` does. -/
abbrev FieldDict := List (String × ResolvedField)

/-- Python `dict.get`. -/
def dictGet (d : FieldDict) (k : String) : Option ResolvedField :=
  (d.find? (fun p => p.1 == k)).map (fun p => p.2)

/-- `out[k] = v`. -/
def dictSet (d : FieldDict) (k : String) (v : ResolvedField) : FieldDict :=
  (k, v) :: d

/-- `{field.id: field for field in v1_fields}.get(v1_id)`: a later duplicate
id overrides an earlier one. -/
def v1Lookup (v1_fields : List FieldV1) (v1_id : Int) : Option FieldV1 :=
  v1_fields.reverse.find? (fun f => f.id == v1_id)

/-- Truthiness of an optional int argument (`if list_id:`): `None` and `0`
are falsy. -/
def truthyOptInt : Option Int → Bool
  | Option.none => false
  | some n => n != 0

/-- `Writer.__get_field`: the global catalog, overlaid (`fields | list_fields`,
right side winning) with the list catalog when `list_id` is truthy; missing
name raises `FieldNotFoundError`. -/
def getField (globalF : FieldDict) (listF : Int → FieldDict)
    (field_name : String) (list_id : Option Int) : Except PyErr ResolvedField :=
  let fields := if truthyOptInt list_id then listF (list_id.getD 0) ++ globalF else globalF
  match dictGet fields (pyUpper field_name) with
  | some f => .ok f
  | Option.none => .error .fieldNotFound

/-- Zero-padded decimal rendering used by `strftime`. -/
def padNum (width : Nat) (n : Nat) : String :=
  let s := toString n
  String.mk (List.replicate (width - s.length) '0') ++ s

/-- `value.strftime('%Y-%m-%dT%H:%M:%S')`; `none` models the
`AttributeError` of calling `.strftime` on a non-datetime. -/
def strftimeISO : Value → Option String
  | .date y mo d h mi s =>
    some (padNum 4 y ++ "-" ++ padNum 2 mo ++ "-" ++ padNum 2 d ++ "T"
      ++ padNum 2 h ++ ":" ++ padNum 2 mi ++ ":" ++ padNum 2 s)
  | _ => Option.none

/-- `[value.strftime(...) for value in field_value]`: left to right, raising
`AttributeError` at the first non-datetime element. -/
def mapStrftime : List Value → Except PyErr (List Value)
  | [] => .ok []
  | v :: rest =>
    match strftimeISO v with
    | some s => (mapStrftime rest).map (fun ws => Value.str s :: ws)
    | Option.none => .error .attributeError

/-- `if isinstance(next(iter(field_value), None), datetime.datetime):
field_value = [value.strftime(...) for value in field_value]`. -/
def formatDates (vs : List Value) : Except PyErr (List Value) :=
  match vs.head? with
  | some (.date _ _ _ _ _ _) => mapStrftime vs
  | _ => .ok vs

/-- A remote mutation issued by `__update_field`. -/
inductive Op where
  /-- `affinity_v1.delete_field_value(field_value_id=...)`. -/
  | deleteFieldValue (field_value_id : Int)
  /-- `affinity_v1.create_field_value(field_id, entity_id, value, list_entry_id)`;
      a `Location` value is sent as its `model_dump()` field map, which the
      `Value.loc` constructor already represents. -/
  | createFieldValue (field_id : Int) (entity_id : Int) (value : Value)
      (list_entry_id : Option Int)
  deriving DecidableEq, Repr

/-- `[value for value in current_values if value.field_id == v1_field.id]`:
the Python comprehension evaluates `v1_field.id` only when `current_values`
is non-empty, so a `None` legacy field raises `AttributeError` exactly then. -/
def filterCurrent (current_values : List FieldValue) (v1opt : Option FieldV1) :
    Except PyErr (List FieldValue) :=
  match current_values with
  | [] => .ok []
  | _ => match v1opt with
    | Option.none => .error .attributeError
    | some v1 => .ok (current_values.filter (fun fv => fv.field_id == v1.id))

/-- `v1_field.allows_multiple` when `v1_field` may be `None`. -/
def derefV1 (v1opt : Option FieldV1) : Except PyErr FieldV1 :=
  match v1opt with
  | Option.none => .error .attributeError
  | some v1 => .ok v1

/-- `Writer.__update_field`, returning the list of remote mutations it
issues, in issue order.  Every raise in the source happens before the first
mutation, so an `error` result is a run that issued no mutations. -/
def updateField (globalF : FieldDict) (listF : Int → FieldDict)
    (entity_id : Int) (list_entry_id : Option Int) (field_name : String)
    (field_value : PyVal) (current_values : List FieldValue)
    (overwrite : Bool) (list_id : Option Int) : Except PyErr (List Op) := do
  let resolved ← getField globalF listF field_name list_id
  checkFieldValueType field_value resolved.1.value_type
  let current ← filterCurrent current_values resolved.2
  if !current.isEmpty && !overwrite then
    return []
  let v1 ← derefV1 resolved.2
  if !v1.allows_multiple && field_value.isList then
    throw .multiplicity
  let entries := field_value.toEntryList
  let entries := entries.filter (fun v => !v.falsy)
  let entries ← formatDates entries
  let values_to_remove := current.filter (fun fv => !pyMem fv.value entries)
  let current_plain := current.map (fun fv => fv.value)
  let values_to_add := entries.filter (fun v => !pyMem v current_plain)
  if values_to_remove.isEmpty && values_to_add.isEmpty then
    return []
  return values_to_remove.map (fun fv => Op.deleteFieldValue fv.id)
    ++ values_to_add.map (fun v =>
        Op.createFieldValue v1.id entity_id v list_entry_id)

/-- The mutations a run issues: the op list on success, nothing on a raise
(every raise site in `__update_field` precedes the first mutation). -/
def emittedOps : Except PyErr (List Op) → List Op
  | .ok ops => ops
  | .error _ => []

/-! ## Field catalog construction (`Writer.__fields`, `Writer.get_list_fields`) -/

/-- `int(field.affinity_id.split('-')[1])` as used by `Writer.__fields`:
`IndexError` when the id has no dash, `ValueError` when the second
dash-delimited segment is not numeric. -/
def parseV1IdGlobal (affinity_id : String) : Except PyErr Int :=
  match (pySplitChar '-' affinity_id).get? 1 with
  | Option.none => .error .indexError
  | some seg =>
    match pyToInt? seg with
    | Option.none => .error .intParseError
    | some n => .ok n

/-- `int(field.affinity_id.split('-')[1]) if '-' in field.affinity_id else
field.affinity_id` as used by `Writer.get_list_fields`: the dash-free id is
kept as a string key (`.inr`), which can never hit the int-keyed v1 dict. -/
def parseV1KeyList (affinity_id : String) : Except PyErr (Int ⊕ String) :=
  if pyContainsChar '-' affinity_id then
    (parseV1IdGlobal affinity_id).map Sum.inl
  else
    .ok (Sum.inr affinity_id)

/-- `v1_fields.get(v1_id)` where the key from the list path may be a string:
a string key misses the int-keyed dict. -/
def v1LookupKey (v1_fields : List FieldV1) : Int ⊕ String → Option FieldV1
  | .inl n => v1Lookup v1_fields n
  | .inr _ => Option.none

/-- `Writer.__fields`: fold the v2 people+company fields (in fetch order)
into a dict keyed by upper-cased name, skipping fields whose `type` is
neither `'global'` nor `'list'`, and pairing each with
`v1_fields.get(int(affinity_id.split('-')[1]))`. -/
def buildGlobalFields (v1_fields : List FieldV1) (v2_fields : List FieldMetaV2) :
    Except PyErr FieldDict :=
  v2_fields.foldlM (fun out f =>
    if f.type != "global" && f.type != "list" then
      pure out
    else do
      let v1_id ← parseV1IdGlobal f.affinity_id
      pure (dictSet out (pyUpper f.name) (f, v1Lookup v1_fields v1_id))) []

/-- `Writer.get_list_fields` (the construction on cache miss): like
`buildGlobalFields` but also skipping the `'persons'`/`'companies'` pseudo
fields, and treating a dash-free `affinity_id` as the lookup key itself. -/
def buildListFields (v1_fields : List FieldV1) (v2_fields : List FieldMetaV2) :
    Except PyErr FieldDict :=
  v2_fields.foldlM (fun out f =>
    if (f.type != "global" && f.type != "list")
        || f.affinity_id == "persons" || f.affinity_id == "companies" then
      pure out
    else do
      let key ← parseV1KeyList f.affinity_id
      pure (dictSet out (pyUpper f.name) (f, v1LookupKey v1_fields key))) []

/-! ## v1 client search helpers (`clients/affinity_v1.py`)

Each helper takes the parsed remote response as an explicit argument and
models only the post-response logic of the source function. -/

/-- v1 `Person` (the attributes the search and reconcile logic reads). -/
structure Person where
  id : Int
  first_name : String
  last_name : String
  emails : List String
  deriving DecidableEq, Repr

/-- v1 `Company`. -/
structure Company where
  id : Int
  name : String
  domain : Option String
  domains : List String
  deriving DecidableEq, Repr

/-- v1 `OpportunityListEntry` (the attributes read here). -/
structure OpportunityListEntry where
  id : Int
  list_id : Int
  deriving DecidableEq, Repr

/-- v1 `Opportunity`; the source's `list_id` property is
`list_entries[0].list_id`. -/
structure Opportunity where
  id : Int
  name : String
  list_entries : List OpportunityListEntry
  deriving DecidableEq, Repr

/-- The `Opportunity.list_id` property (`self.list_entries[0].list_id`):
raises `IndexError` on an opportunity with no list entries. -/
def Opportunity.list_id (o : Opportunity) : Except PyErr Int :=
  match o.list_entries.head? with
  | some e => .ok e.list_id
  | Option.none => .error .indexError

/-- `AffinityClientV1.find_person_by_name` applied to the parsed response
persons.  NOTE the source returns `response.persons[0]` — the first person of
the raw response — when exactly one person matches, not the match itself. -/
def find_person_by_name (first_name last_name : String) (persons : List Person) :
    Except PyErr (Option Person) :=
  let valid_persons := persons.filter (fun p =>
    pyUpper p.first_name == pyUpper first_name
      && pyUpper p.last_name == pyUpper last_name)
  if valid_persons.length == 1 then
    .ok persons.head?
  else if valid_persons.length > 1 then
    .error .multipleResults
  else
    .ok Option.none

/-- Whether a person is an exact case-insensitive match for a queried name. -/
def personMatchesName (first_name last_name : String) (p : Person) : Bool :=
  pyUpper p.first_name == pyUpper first_name
    && pyUpper p.last_name == pyUpper last_name

/-- `AffinityClientV1.find_company_by_domain` applied to the parsed response
organizations. -/
def find_company_by_domain (domain : String) (take_best_match : Bool)
    (organizations : List Company) : Except PyErr (Option Company) :=
  let valid_companies := organizations.filter (fun c =>
    c.domains.any (fun d => pyLower d == pyLower domain))
  if valid_companies.length == 1
      || (take_best_match && valid_companies.length > 0) then
    .ok valid_companies.head?
  else if valid_companies.length > 1 then
    .error .multipleResults
  else
    .ok Option.none

/-- `AffinityClientV1.find_company_by_name` applied to the parsed response. -/
def find_company_by_name (name : String) (take_best_match : Bool)
    (organizations : List Company) : Except PyErr (Option Company) :=
  let valid_companies := organizations.filter (fun c =>
    pyUpper c.name == pyUpper name)
  if valid_companies.length == 1
      || (take_best_match && valid_companies.length > 0) then
    .ok valid_companies.head?
  else if valid_companies.length > 1 then
    .error .multipleResults
  else
    .ok Option.none

/-- The comprehension `[opportunity for opportunity in
response.opportunities if opportunity.list_id == list_id]`: each element's
`list_id` property is evaluated left to right, so an entry-less opportunity
anywhere in the response raises `IndexError`. -/
def filterByListId (list_id : Int) : List Opportunity →
    Except PyErr (List Opportunity)
  | [] => .ok []
  | o :: rest => do
    let lid ← o.list_id
    let tail ← filterByListId list_id rest
    if lid == list_id then pure (o :: tail) else pure tail

/-- `AffinityClientV1.find_opportunity_by_name` applied to the parsed
response opportunities.  The only filter is `opportunity.list_id == list_id`
(propagating its `IndexError`); the queried name is used only as the remote
search term. -/
def find_opportunity_by_name (list_id : Int) (opportunities : List Opportunity) :
    Except PyErr (Option Opportunity) := do
  let valid_opportunities ← filterByListId list_id opportunities
  if valid_opportunities.length == 1 then
    pure valid_opportunities.head?
  else if valid_opportunities.length > 1 then
    Except.error .multipleResults
  else
    pure Option.none

/-- v1 `NewOpportunity` payload. -/
structure NewOpportunity where
  name : String
  list_id : Int
  person_ids : List Int
  organization_ids : List Int
  deriving DecidableEq, Repr

/-- Outcome of `Writer.find_or_create_opportunity`: an existing opportunity,
or the creation payload sent to `create_opportunity`. -/
inductive OpportunityOutcome where
  | found (o : Opportunity)
  | created (n : NewOpportunity)
  deriving DecidableEq, Repr

/-- `Writer.find_or_create_opportunity`, with the name-search response
passed explicitly. -/
def find_or_create_opportunity (name : String) (list_id : Int)
    (company_ids person_ids : List Int) (opportunities : List Opportunity) :
    Except PyErr OpportunityOutcome := do
  let opportunity ← find_opportunity_by_name list_id opportunities
  match opportunity with
  | some o => return .found o
  | Option.none =>
    return .created
      { name := name, list_id := list_id,
        person_ids := person_ids, organization_ids := company_ids }

/-! ## List-entry reconciliation (`Writer.find_or_create_list_entry`) -/

/-- v1 `ListEntry` (the attributes read here; `creator_id`, `created_at`,
`entity_type` and the embedded entity are never read). -/
structure ListEntry where
  id : Int
  list_id : Int
  entity_id : Int
  deriving DecidableEq, Repr

/-- The qualifier loop's `current_field_values` variable: it starts as the
fetched `FieldValue` rows (`.inl`) but is reassigned to a plain value list
(`.inr`) by the first iteration's comprehension. -/
abbrev CurState := List FieldValue ⊕ List Value

/-- `[value.value for value in current_field_values if value.field_id ==
v1_field.id]`: over the fetched rows this filters and projects (evaluating
`v1_field.id` only when the list is non-empty); over an already-projected
plain value list, `value.field_id` raises `AttributeError` at the first
element. -/
def projectToField (cur : CurState) (v1opt : Option FieldV1) :
    Except PyErr (List Value) :=
  match cur with
  | .inl [] => .ok []
  | .inl fvs =>
    match v1opt with
    | Option.none => .error .attributeError
    | some v1 => .ok ((fvs.filter (fun fv => fv.field_id == v1.id)).map
        (fun fv => fv.value))
  | .inr [] => .ok []
  | .inr _ => .error .attributeError

/-- One candidate's qualifier loop (`for field_name, desired_field_value in
qualifiers.items()`), threading the reassigned `current_field_values`
variable and breaking on the first mismatch. -/
def candidateMatches (globalF : FieldDict) (listF : Int → FieldDict)
    (list_id : Int) (qualifiers : List (String × PyVal)) (cur : CurState) :
    Except PyErr Bool :=
  match qualifiers with
  | [] => .ok true
  | (field_name, desired_field_value) :: rest => do
    let resolved ← getField globalF listF field_name (some list_id)
    let desired_list := desired_field_value.toEntryList
    let current_field_values ← projectToField cur resolved.2
    let missing_values := desired_list.filter
      (fun v => !pyMem v current_field_values)
    let extra_values := current_field_values.filter
      (fun v => !pyMem v desired_list)
    if !missing_values.isEmpty || !extra_values.isEmpty then
      .ok false
    else
      candidateMatches globalF listF list_id rest (.inr current_field_values)

/-- The candidate loop: keep the entries whose qualifier check succeeds,
aborting on the first raised error (as the Python `for` loop does). -/
def filterCandidates (check : ListEntry → Except PyErr Bool) :
    List ListEntry → Except PyErr (List ListEntry)
  | [] => .ok []
  | e :: rest => do
    let keep ← check e
    let kept ← filterCandidates check rest
    if keep then pure (e :: kept) else pure kept

/-- Truthiness of the `qualifiers` dict argument: `None` and `{}` are falsy. -/
def truthyQuals : Option (List (String × PyVal)) → Bool
  | Option.none => false
  | some q => !q.isEmpty

/-- Outcome of `Writer.find_or_create_list_entry`: an existing entry, or a
`create_list_entry(entity_id, list_id)` call. -/
inductive ListEntryOutcome where
  | found (e : ListEntry)
  | created (list_id entity_id : Int)
  deriving DecidableEq, Repr

/-- `Writer.find_or_create_list_entry`.  `entries` is the parsed
`fetch_all_list_entries(list_id)` response; `fieldValuesOf` gives the parsed
`fetch_field_values(entity_id, entity_type, list_entry_id=entry.id)`
response per candidate entry. -/
def find_or_create_list_entry (globalF : FieldDict) (listF : Int → FieldDict)
    (entity_id : Int) (list_id : Int)
    (qualifiers : Option (List (String × PyVal)))
    (entries : List ListEntry) (fieldValuesOf : Int → List FieldValue) :
    Except PyErr ListEntryOutcome := do
  let mathing_entries := entries.filter (fun e => e.entity_id == entity_id)
  let mathing_entries ←
    if !mathing_entries.isEmpty && truthyQuals qualifiers then
      filterCandidates
        (fun e => candidateMatches globalF listF list_id (qualifiers.getD [])
          (.inl (fieldValuesOf e.id)))
        mathing_entries
    else
      pure mathing_entries
  if mathing_entries.length > 1 then
    throw .multipleEntries
  match mathing_entries with
  | e :: _ => return .found e
  | [] => return .created list_id entity_id

/-! ## Entity find-or-create (`Writer.find_or_create_person` /
`find_or_create_company`)

These are modelled with an explicit trace of the store and remote calls they
issue, in issue order, so that "raises before any remote or store call" is a
statement about the trace. -/

/-- A store or remote call issued by the find-or-create flows. -/
inductive Call where
  /-- `reader.get_people_ids_by_field(...)` (mirror store lookup). -/
  | storeLookupPeople (field_name : String) (value : Value)
  /-- `reader.get_company_ids_by_field(...)` (mirror store lookup). -/
  | storeLookupCompanies (field_name : String) (value : Value)
  | findPersonById (id : Int)
  /-- `GET persons?term=...` (email or full-name search). -/
  | searchPersons (term : String)
  | createPerson
  | findCompanyById (id : Int)
  /-- `GET organizations?term=...` (domain or name search). -/
  | searchCompanies (term : String)
  | createCompany
  deriving DecidableEq, Repr

/-- Truthiness of an optional string argument: `None` and `''` are falsy. -/
def truthyOptStr : Option String → Bool
  | Option.none => false
  | some s => !s.isEmpty

/-- Truthiness of the `Any`-typed `cached_filed_value` argument. -/
def truthyOptVal : Option Value → Bool
  | Option.none => false
  | some v => !v.falsy

/-- The guard `cached_field_name and not cached_filed_value or
not cached_field_name and cached_filed_value` (an XOR on truthiness). -/
def cachedArgsMismatch (cached_field_name : Option String)
    (cached_filed_value : Option Value) : Bool :=
  let tn := truthyOptStr cached_field_name
  let tv := truthyOptVal cached_filed_value
  (tn && !tv) || (!tn && tv)

/-- Environment for a `find_or_create_person` run: the data the store and
remote calls would return.  `by_id` returns `none` when `find_person_by_id`
raises `TryAgainError` (entity deleted upstream); `email_response` is the
response person list per searched email; `name_response` is the response
person list for the full-name search. -/
structure PersonEnv where
  cached_ids : List Int
  by_id : Int → Option Person
  email_response : String → List Person
  name_response : List Person

/-- v1 `NewPerson` payload; its pydantic validator keeps only the stripped
non-empty emails. -/
structure NewPerson where
  first_name : String
  last_name : String
  emails : List String
  organization_ids : List Int
  deriving DecidableEq, Repr

/-- Outcome of `Writer.find_or_create_person`. -/
inductive PersonOutcome where
  | found (p : Person)
  | created (n : NewPerson)
  deriving DecidableEq, Repr

/-- `AffinityClientV1.find_person_by_emails` (looping
`find_person_by_email`, which returns the first person of each response),
with its call trace. -/
def find_person_by_emails (env : PersonEnv) :
    List String → List Call × Option Person
  | [] => ([], Option.none)
  | email :: rest =>
    match (env.email_response email).head? with
    | some p => ([.searchPersons email], some p)
    | Option.none =>
      let (calls, r) := find_person_by_emails env rest
      (.searchPersons email :: calls, r)

/-- `Writer.find_or_create_person`, returning the call trace alongside the
outcome.  A raise aborts the run with the calls made so far. -/
def find_or_create_person (first_name last_name : String)
    (emails : List String) (organization_ids : Option (List Int))
    (cached_field_name : Option String) (cached_filed_value : Option Value)
    (env : PersonEnv) : List Call × Except PyErr PersonOutcome :=
  if cachedArgsMismatch cached_field_name cached_filed_value then
    ([], .error .cachedArgsError)
  else
    let fast : List Call × Option Person :=
      if truthyOptStr cached_field_name then
        let store := [Call.storeLookupPeople (cached_field_name.getD "")
          (cached_filed_value.getD .none)]
        if env.cached_ids.length == 1 then
          let pid := env.cached_ids.headD 0
          (store ++ [.findPersonById pid], env.by_id pid)
        else
          (store, Option.none)
      else
        ([], Option.none)
    match fast with
    | (calls, some p) => (calls, .ok (.found p))
    | (calls, Option.none) =>
      let (email_calls, by_email) := find_person_by_emails env emails
      match by_email with
      | some p => (calls ++ email_calls, .ok (.found p))
      | Option.none =>
        let name_calls := calls ++ email_calls
          ++ [Call.searchPersons (first_name ++ " " ++ last_name)]
        match find_person_by_name first_name last_name env.name_response with
        | .error e => (name_calls, .error e)
        | .ok (some p) => (name_calls, .ok (.found p))
        | .ok Option.none =>
          (name_calls ++ [Call.createPerson], .ok (.created
            { first_name := first_name, last_name := last_name,
              emails := (emails.map pyStrip).filter (fun s => !s.data.isEmpty),
              organization_ids := organization_ids.getD [] }))

/-- Environment for a `find_or_create_company` run; `domain_response` is the
response organization list per searched domain term. -/
structure CompanyEnv where
  cached_ids : List Int
  by_id : Int → Option Company
  domain_response : String → List Company
  name_response : List Company

/-- v1 `NewCompany` payload. -/
structure NewCompany where
  name : String
  domain : Option String
  person_ids : List Int
  deriving DecidableEq, Repr

/-- Outcome of `Writer.find_or_create_company`. -/
inductive CompanyOutcome where
  | found (c : Company)
  | created (n : NewCompany)
  deriving DecidableEq, Repr

/-- `Writer.find_or_create_company`, returning the call trace alongside the
outcome. -/
def find_or_create_company (name : String) (domain : Option String)
    (take_best_match : Bool)
    (cached_field_name : Option String) (cached_filed_value : Option Value)
    (env : CompanyEnv) : List Call × Except PyErr CompanyOutcome :=
  if cachedArgsMismatch cached_field_name cached_filed_value then
    ([], .error .cachedArgsError)
  else
    let fast : List Call × Option Company :=
      if truthyOptStr cached_field_name then
        let store := [Call.storeLookupCompanies (cached_field_name.getD "")
          (cached_filed_value.getD .none)]
        if env.cached_ids.length == 1 then
          let cid := env.cached_ids.headD 0
          (store ++ [.findCompanyById cid], env.by_id cid)
        else
          (store, Option.none)
      else
        ([], Option.none)
    match fast with
    | (calls, some c) => (calls, .ok (.found c))
    | (calls, Option.none) =>
      let domain_step : List Call × Except PyErr (Option Company) :=
        if truthyOptStr domain then
          let d := domain.getD ""
          ([Call.searchCompanies d],
            find_company_by_domain d take_best_match (env.domain_response d))
        else
          ([], .ok Option.none)
      match domain_step with
      | (dcalls, .error e) => (calls ++ dcalls, .error e)
      | (dcalls, .ok (some c)) => (calls ++ dcalls, .ok (.found c))
      | (dcalls, .ok Option.none) =>
        let ncalls := calls ++ dcalls ++ [Call.searchCompanies name]
        match find_company_by_name name take_best_match env.name_response with
        | .error e => (ncalls, .error e)
        | .ok (some c) => (ncalls, .ok (.found c))
        | .ok Option.none =>
          (ncalls ++ [Call.createCompany], .ok (.created
            { name := name, domain := domain, person_ids := [] }))

/-! ## Example data used by the concrete theorems and witnesses -/

/-- A list-scoped text field, v2 side. -/
def exV2Text : FieldMetaV2 :=
  { affinity_id := "field-10", name := "Stage", type := "list",
    value_type := "text" }

/-- The legacy counterpart of `exV2Text`. -/
def exV1Text : FieldV1 := { id := 10, name := "Stage", allows_multiple := false }

/-- A catalog holding only the `Stage` text field. -/
def exCatalog : FieldDict := dictSet [] "STAGE" (exV2Text, some exV1Text)

/-- An empty per-list catalog. -/
def exNoListFields : Int → FieldDict := fun _ => []

/-- Two current rows for field 10 and one row for an unrelated field. -/
def exCurrent : List FieldValue :=
  [{ id := 100, field_id := 10, list_entry_id := Option.none, entity_id := 7,
     value := .str "old" },
   { id := 101, field_id := 10, list_entry_id := Option.none, entity_id := 7,
     value := .str "keep" },
   { id := 102, field_id := 99, list_entry_id := Option.none, entity_id := 7,
     value := .str "other" }]

/-- A multi-valued dropdown field whose legacy metadata disallows multiple
values. -/
def exV2Multi : FieldMetaV2 :=
  { affinity_id := "field-11", name := "Tags", type := "list",
    value_type := "dropdown-multi" }

/-- Legacy counterpart of `exV2Multi` with `allows_multiple = false`. -/
def exV1Multi : FieldV1 := { id := 11, name := "Tags", allows_multiple := false }

/-- Catalog holding `Stage` and `Tags`. -/
def exCatalog2 : FieldDict := dictSet exCatalog "TAGS" (exV2Multi, some exV1Multi)

/-- A person-reference field (runtime type `int`, so `0` passes the type
check). -/
def exV2Person : FieldMetaV2 :=
  { affinity_id := "field-12", name := "Owner", type := "global",
    value_type := "person" }

/-- Legacy counterpart of `exV2Person`. -/
def exV1Person : FieldV1 := { id := 12, name := "Owner", allows_multiple := true }

/-- Catalog holding `Stage` and `Owner`. -/
def exCatalog3 : FieldDict := dictSet exCatalog "OWNER" (exV2Person, some exV1Person)

/-- One current row for the person field. -/
def exCurrentOwner : List FieldValue :=
  [{ id := 200, field_id := 12, list_entry_id := Option.none, entity_id := 7,
     value := .int 5 }]

/-- A response person who does not match the query `Bob B`. -/
def exAna : Person := { id := 1, first_name := "ANA", last_name := "B", emails := [] }

/-- A response person who uniquely matches the query `Bob B`. -/
def exBob : Person := { id := 2, first_name := "BOB", last_name := "B", emails := [] }

/-- A candidate list entry for entity 7 on list 3. -/
def exEntry : ListEntry := { id := 50, list_id := 3, entity_id := 7 }

/-- First qualifier field, v2 side. -/
def exV2Q1 : FieldMetaV2 :=
  { affinity_id := "field-21", name := "Q1", type := "list", value_type := "text" }

/-- First qualifier field, legacy side. -/
def exV1Q1 : FieldV1 := { id := 21, name := "Q1", allows_multiple := false }

/-- Second qualifier field, v2 side. -/
def exV2Q2 : FieldMetaV2 :=
  { affinity_id := "field-22", name := "Q2", type := "list", value_type := "text" }

/-- Second qualifier field, legacy side. -/
def exV1Q2 : FieldV1 := { id := 22, name := "Q2", allows_multiple := false }

/-- Per-list catalog holding the two qualifier fields. -/
def exQualCatalog : Int → FieldDict := fun _ =>
  dictSet (dictSet [] "Q1" (exV2Q1, some exV1Q1)) "Q2" (exV2Q2, some exV1Q2)

/-- Field values of candidate entry 50: `Q1 = "a"`, `Q2 = "b"`. -/
def exEntryValues : Int → List FieldValue := fun entry_id =>
  if entry_id == 50 then
    [{ id := 300, field_id := 21, list_entry_id := some 50, entity_id := 7,
       value := .str "a" },
     { id := 301, field_id := 22, list_entry_id := some 50, entity_id := 7,
       value := .str "b" }]
  else []

/-- An opportunity named `Zebra` on list 5. -/
def exZebra : Opportunity :=
  { id := 9, name := "Zebra", list_entries := [{ id := 1, list_id := 5 }] }

/-- Two companies both carrying the domain `x.com` (one upper-cased). -/
def exCompanyA : Company :=
  { id := 1, name := "A", domain := some "x.com", domains := ["X.COM"] }

/-- Second company with domain `x.com`. -/
def exCompanyB : Company :=
  { id := 2, name := "B", domain := some "x.com", domains := ["x.com"] }

/-- A v2 field whose versioned identifier has no dash. -/
def exPlainField : FieldMetaV2 :=
  { affinity_id := "plainid", name := "X", type := "list", value_type := "text" }

/-- A person environment in which every lookup comes back empty. -/
def exEmptyPersonEnv : PersonEnv :=
  { cached_ids := [], by_id := fun _ => Option.none,
    email_response := fun _ => [], name_response := [] }

/-- A company environment in which every lookup comes back empty. -/
def exEmptyCompanyEnv : CompanyEnv :=
  { cached_ids := [], by_id := fun _ => Option.none,
    domain_response := fun _ => [], name_response := [] }

/-! ## Proof-support lemmas -/

/-- Bind on a successful `Except` computation. -/
theorem ok_bind {α β : Type} (a : α) (g : α → Except PyErr β) :
    (Except.ok a >>= g) = g a := rfl

/-- Bind on a failed `Except` computation. -/
theorem error_bind {α β : Type} (e : PyErr) (g : α → Except PyErr β) :
    ((Except.error e : Except PyErr α) >>= g) = Except.error e := rfl

/-- `pure` into `Except` is `ok`. -/
theorem pure_eq_ok {α : Type} (a : α) : (pure a : Except PyErr α) = .ok a := rfl

/-- With a present legacy field the comprehension over current values never
raises and is a plain filter. -/
theorem filterCurrent_some (cv : List FieldValue) (v1 : FieldV1) :
    filterCurrent cv (some v1)
      = .ok (cv.filter (fun fv => fv.field_id == v1.id)) := by
  cases cv <;> rfl

/-- Dereferencing a present legacy field succeeds. -/
theorem derefV1_some (v1 : FieldV1) : derefV1 (some v1) = .ok v1 := rfl

/-- Splitting a separator-free character list yields the single segment
holding everything seen so far. -/
theorem splitCharAux_no_sep (sep : Char) (cs acc : List Char)
    (h : cs.contains sep = false) :
    splitCharAux sep cs acc = [String.mk (acc.reverse ++ cs)] := by
  induction cs generalizing acc with
  | nil => simp [splitCharAux]
  | cons c rest ih =>
    simp only [List.contains_cons, Bool.or_eq_false_iff] at h
    have hne : ¬ ((c == sep) = true) := by
      simp only [beq_iff_eq]
      have := h.1
      simp only [beq_eq_false_iff_ne] at this
      exact fun hc => this hc.symm
    rw [splitCharAux, if_neg hne, ih _ h.2]
    simp

/-- Splitting a string that does not contain the separator returns the
string itself as the only segment. -/
theorem pySplitChar_no_sep (sep : Char) (s : String)
    (h : pyContainsChar sep s = false) :
    pySplitChar sep s = [s] := by
  unfold pySplitChar
  rw [splitCharAux_no_sep sep s.data [] h]
  cases s
  simp

/-- String concatenation concatenates the character data. -/
theorem data_append (a b : String) : (a ++ b).data = a.data ++ b.data := by
  cases a; cases b; rfl

/-- A rendered `strftime` string is never empty (it contains the literal
dashes and colons of the format). -/
theorem strftimeISO_ne_empty (v : Value) (s : String)
    (h : strftimeISO v = some s) : s.data.isEmpty = false := by
  cases v <;> simp only [strftimeISO, Option.some.injEq, reduceCtorEq] at h
  rw [← h]
  have hdash : ("-" : String).data = ['-'] := rfl
  simp [data_append, hdash, List.isEmpty_iff]

/-- Every element produced by the `strftime` comprehension is a non-empty
string. -/
theorem mapStrftime_mem (vs ws : List Value)
    (h : mapStrftime vs = .ok ws) :
    ∀ w ∈ ws, ∃ s, w = .str s ∧ s.data.isEmpty = false := by
  induction vs generalizing ws with
  | nil =>
    simp [mapStrftime] at h
    subst h
    simp
  | cons v rest ih =>
    unfold mapStrftime at h
    cases hv : strftimeISO v with
    | none => rw [hv] at h; simp at h
    | some s =>
      rw [hv] at h
      cases hrest : mapStrftime rest with
      | error e => rw [hrest] at h; simp [Except.map] at h
      | ok ws' =>
        rw [hrest] at h
        simp [Except.map] at h
        subst h
        intro w hw
        rcases List.mem_cons.mp hw with hw | hw
        · exact ⟨s, hw, strftimeISO_ne_empty v s hv⟩
        · exact ih ws' hrest w hw

/-- Date formatting preserves "no falsy entries": it either returns the
input unchanged or replaces it by non-empty strings. -/
theorem formatDates_nonfalsy (vs ws : List Value)
    (hvs : ∀ v ∈ vs, v.falsy = false)
    (h : formatDates vs = .ok ws) : ∀ w ∈ ws, w.falsy = false := by
  unfold formatDates at h
  cases hh : vs.head? with
  | none =>
    rw [hh] at h
    cases vs with
    | nil => simp at h; subst h; simp
    | cons a l => simp at hh
  | some a =>
    rw [hh] at h
    cases a with
    | date y mo d hr mi sec =>
      intro w hw
      obtain ⟨s', hs', hne⟩ := mapStrftime_mem vs ws h w hw
      rw [hs']
      simp [Value.falsy, hne]
    | none => simp at h; subst h; exact hvs
    | str s => simp at h; subst h; exact hvs
    | int n => simp at h; subst h; exact hvs
    | float n => simp at h; subst h; exact hvs
    | bool b => simp at h; subst h; exact hvs
    | loc a b c d => simp at h; subst h; exact hvs

/-- The email-search loop issues only person-search calls. -/
theorem find_person_by_emails_calls (env : PersonEnv) (es : List String)
    (c : Call) (h : c ∈ (find_person_by_emails env es).1) :
    ∃ e, c = .searchPersons e := by
  induction es with
  | nil => simp [find_person_by_emails] at h
  | cons e rest ih =>
    unfold find_person_by_emails at h
    cases hr : (env.email_response e).head? with
    | some p =>
      rw [hr] at h
      simp at h
      exact ⟨e, h⟩
    | none =>
      rw [hr] at h
      obtain ⟨pr, hpr⟩ : ∃ p, find_person_by_emails env rest = p := ⟨_, rfl⟩
      obtain ⟨calls, r⟩ := pr
      rw [hpr] at h
      simp at h
      rcases h with h | h
      · exact ⟨e, h⟩
      · exact ih (by rw [hpr]; exact h)

/-- A list value never passes the field-value type check: every `-multi`
declared type is bound to a parameterized generic (so `isinstance` raises
`TypeError`), and a list is not an instance of any scalar-bound type. -/
theorem checkList_never_ok (es : List Value) (vt : String) (u : Unit)
    (h : checkFieldValueType (.list es) vt = .ok u) : False := by
  unfold checkFieldValueType at h
  cases hm : FieldTypeMap vt with
  | none => rw [hm] at h; simp at h
  | some ty =>
    rw [hm] at h
    cases ty <;> simp [isinstanceE, PyVal.isNone] at h

/-- `throw` into `Except` is `error`. -/
theorem throw_eq_error {α : Type} (e : PyErr) :
    (throw e : Except PyErr α) = .error e := rfl

/-- If a scalar value passes the type check for some declared type, then so
does the scalar `None` (the check exempts `None`). -/
theorem checkScalar_none_ok (v : Value) (vt : String)
    (h : checkFieldValueType (.scalar v) vt = .ok ()) :
    checkFieldValueType (.scalar .none) vt = .ok () := by
  unfold checkFieldValueType at h ⊢
  cases hm : FieldTypeMap vt with
  | none => rw [hm] at h; simp at h
  | some ty =>
    rw [hm] at h
    cases ty with
    | listOf t => simp [isinstanceE] at h
    | int => rfl
    | float => rfl
    | str => rfl
    | location => rfl
    | datetime => rfl

/-- Every survivor of the opportunity list-id comprehension is a response
opportunity whose `list_id` property evaluates to the queried list id. -/
theorem filterByListId_mem (list_id : Int) (os valid : List Opportunity)
    (h : filterByListId list_id os = .ok valid) :
    ∀ o ∈ valid, o.list_id = .ok list_id ∧ o ∈ os := by
  induction os generalizing valid with
  | nil =>
    simp [filterByListId] at h
    subst h
    simp
  | cons a rest ih =>
    unfold filterByListId at h
    cases hl : a.list_id with
    | error e => rw [hl] at h; simp [error_bind] at h
    | ok lid =>
      rw [hl] at h
      simp only [ok_bind] at h
      cases hr : filterByListId list_id rest with
      | error e => rw [hr] at h; simp [error_bind] at h
      | ok tail =>
        rw [hr] at h
        simp only [ok_bind] at h
        by_cases hc : (lid == list_id) = true
        · rw [if_pos hc] at h
          simp [pure_eq_ok] at h
          subst h
          intro o ho
          rcases List.mem_cons.mp ho with rfl | ho
          · refine ⟨?_, List.mem_cons_self _ _⟩
            rw [hl, eq_of_beq hc]
          · obtain ⟨h1, h2⟩ := ih tail hr o ho
            exact ⟨h1, List.mem_cons_of_mem a h2⟩
        · rw [if_neg hc] at h
          simp [pure_eq_ok] at h
          subst h
          intro o ho
          obtain ⟨h1, h2⟩ := ih tail hr o ho
          exact ⟨h1, List.mem_cons_of_mem a h2⟩

/-- The list-id comprehension raises `IndexError` whenever some response
opportunity has no list entries. -/
theorem filterByListId_indexError (list_id : Int) (os : List Opportunity)
    (h : ∃ o ∈ os, o.list_entries = []) :
    filterByListId list_id os = .error .indexError := by
  induction os with
  | nil => simp at h
  | cons a rest ih =>
    obtain ⟨o, ho, hoe⟩ := h
    rcases List.mem_cons.mp ho with ho | ho
    · subst ho
      unfold filterByListId
      rw [show o.list_id = Except.error PyErr.indexError by
        unfold Opportunity.list_id; rw [hoe]; rfl]
      rfl
    · unfold filterByListId
      cases hl : a.list_id with
      | error e =>
        unfold Opportunity.list_id at hl
        cases he : a.list_entries with
        | nil =>
          rw [he] at hl
          simp at hl
          subst hl
          rfl
        | cons x xs => rw [he] at hl; simp at hl
      | ok lid =>
        rw [ih ⟨o, ho, hoe⟩]
        rfl

/-! ## Theorems for the claims -/

/-- C3: `find_person_by_name` on a response in which exactly one person
(`exBob`) case-insensitively matches the query `Bob B` returns
`response.persons[0]` — the non-matching `exAna` — instead of the match.
The code computes `valid_persons` and then indexes the raw response list
(every sibling finder indexes the filtered list), contradicting the spec's
"return the exact match". -/
theorem find_person_by_name_unique_match_bug :
    find_person_by_name "Bob" "B" [exAna, exBob] = .ok (some exAna)
      ∧ personMatchesName "Bob" "B" exAna = false
      ∧ personMatchesName "Bob" "B" exBob = true
      ∧ find_person_by_name "Bob" "B" [exBob, exBob] = .error .multipleResults
      ∧ find_person_by_name "Bob" "B" [exAna] = .ok Option.none :=
  ⟨rfl, rfl, rfl, rfl, rfl⟩

/-- C4: with two qualifiers, the qualifier loop of
`find_or_create_list_entry` crashes.  The candidate's values satisfy the
first qualifier (`Q1 = "a"`), the loop reassigns `current_field_values` to
the plain value list `["a"]`, and the second qualifier's comprehension then
evaluates `value.field_id` on a plain string: `AttributeError`.  The same
call with either single qualifier behaves as specified. -/
theorem list_entry_two_qualifiers_bug :
    find_or_create_list_entry [] exQualCatalog 7 3
        (some [("Q1", .scalar (.str "a")), ("Q2", .scalar (.str "b"))])
        [exEntry] exEntryValues = .error .attributeError
      ∧ find_or_create_list_entry [] exQualCatalog 7 3
        (some [("Q1", .scalar (.str "a"))]) [exEntry] exEntryValues
        = .ok (.found exEntry)
      ∧ find_or_create_list_entry [] exQualCatalog 7 3
        (some [("Q2", .scalar (.str "b"))]) [exEntry] exEntryValues
        = .ok (.found exEntry)
      ∧ find_or_create_list_entry [] exQualCatalog 7 3
        (some [("Q1", .scalar (.str "z"))]) [exEntry] exEntryValues
        = .ok (.created 3 7) :=
  ⟨rfl, rfl, rfl, rfl⟩

/-- C7: a list value supplied against a field whose legacy metadata has
`allows_multiple = false` is not rejected with the multiplicity
`ValueError`: the type check runs first, and `isinstance(value, list[str])`
(the `FieldTypeMap` binding of every `-multi` declared type) raises
`TypeError: isinstance() argument 2 cannot be a parameterized generic`; for
a scalar-bound declared type the list fails the `isinstance` check and
raises the type-mismatch `ValueError`.  The multiplicity raise is therefore
unreachable for list inputs, for any current values and either overwrite
flag. -/
theorem multi_list_value_type_error_bug :
    updateField exCatalog2 exNoListFields 7 Option.none "Tags"
        (.list [.str "x"]) [] true Option.none = .error .typeErrorParamGeneric
      ∧ updateField exCatalog2 exNoListFields 7 Option.none "Tags"
        (.list [.str "x"]) exCurrent false Option.none
        = .error .typeErrorParamGeneric
      ∧ updateField exCatalog2 exNoListFields 7 Option.none "Stage"
        (.list [.str "x"]) [] true Option.none = .error .typeMismatch
      ∧ ∀ (e : PyErr), e = .typeErrorParamGeneric ∨ e = .typeMismatch →
          e ≠ .multiplicity := by
  refine ⟨rfl, rfl, rfl, ?_⟩
  intro e h
  rcases h with h | h <;> simp [h]

/-- C5 counterexample: the global catalog (`Writer.__fields`) fails with
`IndexError` on a dash-free versioned identifier — `split('-')[1]` is
applied unconditionally — while the list-scoped catalog
(`Writer.get_list_fields`) accepts the same field. -/
theorem global_catalog_dashfree_fails :
    buildGlobalFields [] [exPlainField] = .error .indexError
      ∧ buildListFields [] [exPlainField]
        = .ok [("X", (exPlainField, Option.none))] :=
  ⟨rfl, rfl⟩

/-- C6 counterexample: `find_or_create_opportunity` returns an existing
opportunity whose name (`Zebra`) does not case-insensitively equal the
requested name (`Acme`); the search filters only on `list_id`. -/
theorem opportunity_search_ignores_name :
    find_or_create_opportunity "Acme" 5 [1] [2] [exZebra]
        = .ok (.found exZebra)
      ∧ pyUpper exZebra.name ≠ pyUpper "Acme" := by
  refine ⟨rfl, by decide⟩

/-- C1: whenever a field update reaches the diff phase (the field resolves
with a legacy counterpart, the value type-checks, the overwrite guard does
not fire, the multiplicity check passes and normalization succeeds), the
issued operations are exactly: one delete per current row of the resolved
legacy field whose value is not in the normalized desired list, followed by
one create per desired entry whose value is not among the current rows'
values — removals strictly before additions, and no operation at all when
both sets are empty. -/
theorem update_field_diff_spec
    (globalF : FieldDict) (listF : Int → FieldDict)
    (entity_id : Int) (list_entry_id : Option Int) (field_name : String)
    (field_value : PyVal) (current_values : List FieldValue)
    (overwrite : Bool) (list_id : Option Int)
    (f : FieldMetaV2) (v1 : FieldV1) (desired : List Value)
    (hres : getField globalF listF field_name list_id = .ok (f, some v1))
    (hchk : checkFieldValueType field_value f.value_type = .ok ())
    (hguard : overwrite = true
      ∨ current_values.filter (fun fv => fv.field_id == v1.id) = [])
    (hmulti : v1.allows_multiple = true ∨ field_value.isList = false)
    (hnorm : formatDates (field_value.toEntryList.filter (fun v => !v.falsy))
      = .ok desired) :
    updateField globalF listF entity_id list_entry_id field_name field_value
        current_values overwrite list_id
      = .ok ((((current_values.filter (fun fv => fv.field_id == v1.id)).filter
            (fun fv => !pyMem fv.value desired)).map
            (fun fv => Op.deleteFieldValue fv.id))
        ++ ((desired.filter (fun v => !pyMem v ((current_values.filter
            (fun fv => fv.field_id == v1.id)).map (fun fv => fv.value)))).map
            (fun v => Op.createFieldValue v1.id entity_id v list_entry_id))) := by
  unfold updateField
  rw [hres, ok_bind]
  rw [show checkFieldValueType field_value (f, some v1).1.value_type
    = Except.ok () from hchk, ok_bind]
  simp only [filterCurrent_some, ok_bind]
  rw [if_neg (by rcases hguard with h | h <;> simp [h])]
  rw [show derefV1 (f, some v1).2 = Except.ok v1 from rfl, ok_bind]
  rw [if_neg (by rcases hmulti with h | h <;> simp [h])]
  rw [hnorm, ok_bind]
  split
  · next hc =>
    simp only [Bool.and_eq_true, List.isEmpty_iff] at hc
    rw [hc.1, hc.2]
    rfl
  · rfl

/-- C1 witness: a concrete text-field update with `overwrite = true` whose
diff removes rows 100 and 101 and then adds `"new"`. -/
theorem update_field_diff_spec_witness :
    updateField exCatalog exNoListFields 7 Option.none "Stage"
        (.scalar (.str "new")) exCurrent true Option.none
      = .ok [Op.deleteFieldValue 100, Op.deleteFieldValue 101,
          Op.createFieldValue 10 7 (.str "new") Option.none] :=
  update_field_diff_spec exCatalog exNoListFields 7 Option.none "Stage"
    (.scalar (.str "new")) exCurrent true Option.none
    exV2Text exV1Text [.str "new"] rfl rfl (Or.inl rfl) (Or.inr rfl) rfl

/-- C2: with `overwrite = false` and at least one current row for the
resolved legacy field, the update issues no mutation at all — no create and
no delete (on a well-typed value it is the silent no-op return; on an
ill-typed value it raises, still before any mutation). -/
theorem update_field_no_overwrite_noop
    (globalF : FieldDict) (listF : Int → FieldDict)
    (entity_id : Int) (list_entry_id : Option Int) (field_name : String)
    (field_value : PyVal) (current_values : List FieldValue)
    (list_id : Option Int) (f : FieldMetaV2) (v1 : FieldV1)
    (hres : getField globalF listF field_name list_id = .ok (f, some v1))
    (hcur : current_values.filter (fun fv => fv.field_id == v1.id) ≠ []) :
    emittedOps (updateField globalF listF entity_id list_entry_id field_name
      field_value current_values false list_id) = [] := by
  unfold updateField
  rw [hres]
  rw [ok_bind]
  cases hchk : checkFieldValueType field_value f.value_type with
  | error e => rfl
  | ok u =>
    have hne : (current_values.filter
        (fun fv => fv.field_id == v1.id)).isEmpty = false := by
      simpa [List.isEmpty_iff] using hcur
    simp only [ok_bind, filterCurrent_some]
    rw [if_pos (by simp [hne])]
    rfl

/-- C2 witness: a concrete no-overwrite update against two existing rows
issues nothing. -/
theorem update_field_no_overwrite_noop_witness :
    emittedOps (updateField exCatalog exNoListFields 7 Option.none "Stage"
      (.scalar (.str "new")) exCurrent false Option.none) = [] :=
  update_field_no_overwrite_noop exCatalog exNoListFields 7 Option.none
    "Stage" (.scalar (.str "new")) exCurrent Option.none exV2Text exV1Text
    rfl (by decide)

/-- C5 (amended): when a versioned identifier contains a dash, both the
global and the list-scoped catalog parse its second dash-delimited segment
as the legacy numeric id; a dash-free identifier is treated as the legacy
lookup key itself — without failing — only by the list-scoped catalog,
while the global catalog fails with `IndexError` on it. -/
theorem catalog_legacy_id_translation :
    (∀ aid seg n, (pySplitChar '-' aid).get? 1 = some seg →
        pyToInt? seg = some n → pyContainsChar '-' aid = true →
      parseV1IdGlobal aid = .ok n ∧ parseV1KeyList aid = .ok (.inl n))
    ∧ (∀ aid, pyContainsChar '-' aid = false →
      parseV1KeyList aid = .ok (.inr aid)
        ∧ parseV1IdGlobal aid = .error .indexError)
    ∧ (∀ v1s f, (f.type = "global" ∨ f.type = "list") →
        pyContainsChar '-' f.affinity_id = false →
        f.affinity_id ≠ "persons" → f.affinity_id ≠ "companies" →
      buildListFields v1s [f] = .ok [(pyUpper f.name, (f, Option.none))]
        ∧ buildGlobalFields v1s [f] = .error .indexError) := by
  have key2 : ∀ aid, pyContainsChar '-' aid = false →
      parseV1KeyList aid = .ok (.inr aid)
        ∧ parseV1IdGlobal aid = .error .indexError := by
    intro aid hc
    constructor
    · unfold parseV1KeyList
      rw [if_neg (by simp [hc])]
    · unfold parseV1IdGlobal
      rw [pySplitChar_no_sep _ _ hc]
      rfl
  refine ⟨?_, key2, ?_⟩
  · intro aid seg n hseg hn hc
    have hglob : parseV1IdGlobal aid = .ok n := by
      unfold parseV1IdGlobal
      rw [hseg]
      simp [hn]
    refine ⟨hglob, ?_⟩
    unfold parseV1KeyList
    rw [if_pos (by simp [hc]), hglob]
    rfl
  · intro v1s f hty hc hp hcmp
    have hkey := key2 f.affinity_id hc
    have hskip : ((f.type != "global" && f.type != "list")
        || f.affinity_id == "persons" || f.affinity_id == "companies")
        = false := by
      rcases hty with h | h <;> simp [h, hp, hcmp]
    constructor
    · unfold buildListFields
      simp [List.foldlM, hskip, hkey.1, ok_bind, pure_eq_ok, dictSet,
        v1LookupKey]
    · unfold buildGlobalFields
      simp [List.foldlM, hskip, hkey.2, error_bind, pure_eq_ok]
      rcases hty with h | h <;> rw [if_neg (by simp [h])] <;> rfl

/-- C5 witness: `"field-1234"` parses to legacy id `1234` on both paths,
and the dash-free `"plainid"` field is accepted by the list catalog but
fails the global catalog. -/
theorem catalog_legacy_id_translation_witness :
    (parseV1IdGlobal "field-1234" = .ok 1234
      ∧ parseV1KeyList "field-1234" = .ok (.inl 1234))
    ∧ (buildListFields [] [exPlainField]
        = .ok [(pyUpper exPlainField.name, (exPlainField, Option.none))]
      ∧ buildGlobalFields [] [exPlainField] = .error .indexError) :=
  ⟨catalog_legacy_id_translation.1 "field-1234" "1234" 1234 rfl rfl rfl,
   catalog_legacy_id_translation.2.2 [] exPlainField (Or.inr rfl) rfl
     (by decide) (by decide)⟩

/-- C6 (amended): provided every response opportunity's `list_id` property
evaluates (the comprehension raises `IndexError` on an entry-less
opportunity), the search phase of `find_or_create_opportunity` returns an
existing opportunity only if it belongs to `list_id` (it is the first
response opportunity on that list; the requested name is used only as the
remote search term and is not checked locally); two or more response
opportunities on that list fail with `MultipleResultsError`; none triggers
creation with the supplied name, list id, company ids and person ids; and a
response containing an entry-less opportunity raises `IndexError`. -/
theorem find_or_create_opportunity_spec
    (name : String) (list_id : Int) (company_ids person_ids : List Int)
    (opportunities valid : List Opportunity)
    (hfilter : filterByListId list_id opportunities = .ok valid) :
    (∀ o, find_or_create_opportunity name list_id company_ids person_ids
        opportunities = .ok (.found o) →
      o.list_id = .ok list_id ∧ o ∈ opportunities ∧ valid.head? = some o)
    ∧ (1 < valid.length →
      find_or_create_opportunity name list_id company_ids person_ids
        opportunities = .error .multipleResults)
    ∧ (valid = [] →
      find_or_create_opportunity name list_id company_ids person_ids
        opportunities
          = .ok (.created ⟨name, list_id, person_ids, company_ids⟩))
    ∧ (∀ (os : List Opportunity), (∃ o ∈ os, o.list_entries = []) →
      find_or_create_opportunity name list_id company_ids person_ids os
        = .error .indexError) := by
  refine ⟨?_, ?_, ?_, ?_⟩
  · intro o h
    unfold find_or_create_opportunity find_opportunity_by_name at h
    rw [hfilter] at h
    simp only [ok_bind] at h
    rcases valid with _ | ⟨x, _ | ⟨y, ys⟩⟩
    · simp [ok_bind, pure_eq_ok] at h
    · simp [ok_bind, pure_eq_ok] at h
      obtain ⟨h1, h2⟩ := filterByListId_mem list_id opportunities [x]
        hfilter x (List.mem_singleton_self x)
      rw [← h]
      exact ⟨h1, h2, rfl⟩
    · have h1 : ¬ ((((x :: y :: ys).length == 1) = true)) := by simp
      have h2 : (x :: y :: ys).length > 1 := by simp
      rw [if_neg h1, if_pos h2] at h
      simp [error_bind] at h
  · intro hlen
    unfold find_or_create_opportunity find_opportunity_by_name
    rw [hfilter]
    simp only [ok_bind]
    have h1 : ¬ ((valid.length == 1) = true) := by simp; omega
    rw [if_neg h1, if_pos hlen, error_bind]
  · intro hnil
    unfold find_or_create_opportunity find_opportunity_by_name
    rw [hfilter, hnil]
    rfl
  · intro os hos
    unfold find_or_create_opportunity find_opportunity_by_name
    rw [filterByListId_indexError list_id os hos]
    rfl

/-- C6 witness: with one opportunity on list 5 the search returns it (it
belongs to list 5); with no opportunity on list 4 a creation payload is
built; and a response holding an entry-less opportunity raises
`IndexError`. -/
theorem find_or_create_opportunity_spec_witness :
    (exZebra.list_id = .ok 5 ∧ exZebra ∈ [exZebra]
      ∧ ([exZebra] : List Opportunity).head? = some exZebra)
    ∧ find_or_create_opportunity "Acme" 4 [1] [2] [exZebra]
        = .ok (.created ⟨"Acme", 4, [2], [1]⟩)
    ∧ find_or_create_opportunity "Acme" 5 [1] [2]
        [{ id := 8, name := "Bare", list_entries := [] }]
        = .error .indexError :=
  ⟨(find_or_create_opportunity_spec "Acme" 5 [1] [2] [exZebra] [exZebra]
      rfl).1 exZebra rfl,
   (find_or_create_opportunity_spec "Acme" 4 [1] [2] [exZebra] [] rfl).2.2.1
      rfl,
   (find_or_create_opportunity_spec "Acme" 5 [1] [2] [] [] rfl).2.2.2
      [{ id := 8, name := "Bare", list_entries := [] }]
      ⟨{ id := 8, name := "Bare", list_entries := [] },
        List.mem_singleton_self _, rfl⟩⟩

/-- C8: when two or more response companies carry a domain that
case-insensitively equals the query, `take_best_match = false` fails with
`MultipleResultsError` and `take_best_match = true` returns the first
matching company in search-rank (response) order; with exactly one match
that match is returned under either flag. -/
theorem company_domain_ambiguity_spec (domain : String)
    (organizations : List Company) :
    (2 ≤ (organizations.filter (fun c =>
        c.domains.any (fun d => pyLower d == pyLower domain))).length →
      find_company_by_domain domain false organizations
          = .error .multipleResults
      ∧ find_company_by_domain domain true organizations
        = .ok (organizations.filter (fun c =>
            c.domains.any (fun d => pyLower d == pyLower domain))).head?)
    ∧ ((organizations.filter (fun c =>
        c.domains.any (fun d => pyLower d == pyLower domain))).length = 1 →
      ∀ b, find_company_by_domain domain b organizations
        = .ok (organizations.filter (fun c =>
            c.domains.any (fun d => pyLower d == pyLower domain))).head?) := by
  unfold find_company_by_domain
  set L := organizations.filter (fun c =>
    c.domains.any (fun d => pyLower d == pyLower domain)) with hL
  constructor
  · intro h2
    have h1 : (L.length == 1) = false := by simp; omega
    have hgt : (decide (L.length > 1)) = true := by simp; omega
    have hgt0 : (decide (L.length > 0)) = true := by simp; omega
    constructor
    · simp [h1, hgt]
      omega
    · simp [h1, hgt0]
  · intro h1 b
    simp [h1]

/-- C8 witness: two companies matching `x.com` fail without best-match and
yield the first with it; a single match is returned under both flags. -/
theorem company_domain_ambiguity_spec_witness :
    (find_company_by_domain "x.com" false [exCompanyA, exCompanyB]
        = .error .multipleResults
      ∧ find_company_by_domain "x.com" true [exCompanyA, exCompanyB]
        = .ok (some exCompanyA))
    ∧ ∀ b, find_company_by_domain "x.com" b [exCompanyA]
        = .ok (some exCompanyA) := by
  refine ⟨?_, ?_⟩
  · have h := (company_domain_ambiguity_spec "x.com"
      [exCompanyA, exCompanyB]).1 (by decide)
    exact ⟨h.1, by rw [h.2]; rfl⟩
  · intro b
    have h := (company_domain_ambiguity_spec "x.com" [exCompanyA]).2
      (by decide) b
    rw [h]
    rfl

/-- C9: supplying exactly one (truthiness-wise) of `cached_field_name` and
`cached_filed_value` to `find_or_create_person` or `find_or_create_company`
raises `ValueError` with an empty call trace — before any remote or store
call; and the cached fast path (the mirror-store lookup) runs only when
both are supplied (truthy). -/
theorem cached_args_xor_guard :
    (∀ (first_name last_name : String) (emails : List String)
        (organization_ids : Option (List Int)) (cfn : Option String)
        (cfv : Option Value) (env : PersonEnv),
      cachedArgsMismatch cfn cfv = true →
      find_or_create_person first_name last_name emails organization_ids
        cfn cfv env = ([], .error .cachedArgsError))
    ∧ (∀ (name : String) (domain : Option String) (tbm : Bool)
        (cfn : Option String) (cfv : Option Value) (env : CompanyEnv),
      cachedArgsMismatch cfn cfv = true →
      find_or_create_company name domain tbm cfn cfv env
        = ([], .error .cachedArgsError))
    ∧ (∀ (first_name last_name : String) (emails : List String)
        (organization_ids : Option (List Int)) (cfn : Option String)
        (cfv : Option Value) (env : PersonEnv) (fn : String) (v : Value),
      Call.storeLookupPeople fn v ∈ (find_or_create_person first_name last_name
        emails organization_ids cfn cfv env).1 →
      truthyOptStr cfn = true ∧ truthyOptVal cfv = true)
    ∧ (∀ (name : String) (domain : Option String) (tbm : Bool)
        (cfn : Option String) (cfv : Option Value) (env : CompanyEnv)
        (fn : String) (v : Value),
      Call.storeLookupCompanies fn v ∈ (find_or_create_company name domain tbm
        cfn cfv env).1 →
      truthyOptStr cfn = true ∧ truthyOptVal cfv = true) := by
  refine ⟨?_, ?_, ?_, ?_⟩
  · intro first_name last_name emails organization_ids cfn cfv env h
    unfold find_or_create_person
    rw [if_pos h]
  · intro name domain tbm cfn cfv env h
    unfold find_or_create_company
    rw [if_pos h]
  · intro first_name last_name emails organization_ids cfn cfv env fn v h
    unfold find_or_create_person at h
    by_cases hm : cachedArgsMismatch cfn cfv = true
    · rw [if_pos hm] at h
      simp at h
    · rw [if_neg hm] at h
      cases ht : truthyOptStr cfn with
      | true =>
        refine ⟨rfl, ?_⟩
        unfold cachedArgsMismatch at hm
        rw [ht] at hm
        cases htv : truthyOptVal cfv with
        | true => rfl
        | false => rw [htv] at hm; simp at hm
      | false =>
        exfalso
        rw [ht] at h
        simp only [Bool.false_eq_true, if_neg] at h
        obtain ⟨epr, hepr⟩ : ∃ p, find_person_by_emails env emails = p := ⟨_, rfl⟩
        obtain ⟨ecalls, er⟩ := epr
        rw [hepr] at h
        have hnot : Call.storeLookupPeople fn v ∉ ecalls := by
          intro hmem
          obtain ⟨e', he⟩ := find_person_by_emails_calls env emails _
            (by rw [hepr]; exact hmem)
          simp at he
        cases er with
        | some p =>
          simp at h
          exact hnot h
        | none =>
          cases hname : find_person_by_name first_name last_name
              env.name_response with
          | error e =>
            rw [hname] at h
            simp at h
            exact hnot h
          | ok r =>
            rw [hname] at h
            cases r with
            | some p =>
              simp at h
              exact hnot h
            | none =>
              simp at h
              exact hnot h
  · intro name domain tbm cfn cfv env fn v h
    unfold find_or_create_company at h
    by_cases hm : cachedArgsMismatch cfn cfv = true
    · rw [if_pos hm] at h
      simp at h
    · rw [if_neg hm] at h
      cases ht : truthyOptStr cfn with
      | true =>
        refine ⟨rfl, ?_⟩
        unfold cachedArgsMismatch at hm
        rw [ht] at hm
        cases htv : truthyOptVal cfv with
        | true => rfl
        | false => rw [htv] at hm; simp at hm
      | false =>
        exfalso
        rw [ht] at h
        simp only [Bool.false_eq_true, if_neg] at h
        by_cases hd : truthyOptStr domain = true
        · rw [if_pos hd] at h
          cases hdom : find_company_by_domain (domain.getD "") tbm
              (env.domain_response (domain.getD "")) with
          | error e =>
            rw [hdom] at h
            simp at h
          | ok r =>
            rw [hdom] at h
            cases r with
            | some c => simp at h
            | none =>
              cases hname : find_company_by_name name tbm env.name_response with
              | error e => rw [hname] at h; simp at h
              | ok r2 =>
                rw [hname] at h
                cases r2 with
                | some c => simp at h
                | none => simp at h
        · rw [if_neg hd] at h
          cases hname : find_company_by_name name tbm env.name_response with
          | error e => rw [hname] at h; simp at h
          | ok r2 =>
            rw [hname] at h
            cases r2 with
            | some c => simp at h
            | none => simp at h

/-- C9 witness: a concrete call with only `cached_field_name` supplied
raises before any call, for both entity kinds. -/
theorem cached_args_xor_guard_witness :
    find_or_create_person "Ann" "Lee" ["a@x.io"] Option.none (some "ref")
        Option.none exEmptyPersonEnv = ([], .error .cachedArgsError)
      ∧ find_or_create_company "Acme" Option.none false (some "ref")
        Option.none exEmptyCompanyEnv = ([], .error .cachedArgsError) :=
  ⟨cached_args_xor_guard.1 "Ann" "Lee" ["a@x.io"] Option.none (some "ref")
      Option.none exEmptyPersonEnv rfl,
   cached_args_xor_guard.2.1 "Acme" Option.none false (some "ref")
      Option.none exEmptyCompanyEnv rfl⟩

/-- C10: every Python-falsy entry of the normalized desired list — `None`,
`0`, `0.0`, the empty string and `False` — is dropped before the diff:
nothing falsy survives normalization, no issued create operation ever
carries `0`, `0.0` or `""`, a desired list of only falsy entries behaves
exactly like the empty desired list, and a falsy scalar that passes the
type check behaves exactly like the desired value `None` (removing every
current value when the diff phase is reached). -/
theorem falsy_values_dropped :
    (∀ (pv : PyVal) (des : List Value),
      formatDates (pv.toEntryList.filter (fun v => !v.falsy)) = .ok des →
      ∀ v ∈ des, v.falsy = false)
    ∧ (Value.falsy (.int 0) = true ∧ Value.falsy (.float 0) = true
      ∧ Value.falsy (.str "") = true ∧ Value.falsy (.bool false) = true
      ∧ Value.falsy .none = true)
    ∧ (∀ (globalF : FieldDict) (listF : Int → FieldDict) (entity_id : Int)
        (list_entry_id : Option Int) (field_name : String)
        (field_value : PyVal) (current_values : List FieldValue)
        (overwrite : Bool) (list_id : Option Int) (ops : List Op),
      updateField globalF listF entity_id list_entry_id field_name
        field_value current_values overwrite list_id = .ok ops →
      ∀ fid eid v leid, Op.createFieldValue fid eid v leid ∈ ops →
        v.falsy = false ∧ v ≠ .int 0 ∧ v ≠ .float 0 ∧ v ≠ .str "")
    ∧ (∀ (entries : List Value), (∀ v ∈ entries, v.falsy = true) →
      ∀ (globalF : FieldDict) (listF : Int → FieldDict) (entity_id : Int)
        (list_entry_id : Option Int) (field_name : String)
        (current_values : List FieldValue) (overwrite : Bool)
        (list_id : Option Int),
      updateField globalF listF entity_id list_entry_id field_name
          (.list entries) current_values overwrite list_id
        = updateField globalF listF entity_id list_entry_id field_name
          (.list []) current_values overwrite list_id)
    ∧ (∀ (v : Value), v.falsy = true →
      ∀ (globalF : FieldDict) (listF : Int → FieldDict) (entity_id : Int)
        (list_entry_id : Option Int) (field_name : String)
        (current_values : List FieldValue) (overwrite : Bool)
        (list_id : Option Int) (resolved : ResolvedField),
      getField globalF listF field_name list_id = .ok resolved →
      checkFieldValueType (.scalar v) resolved.1.value_type = .ok () →
      updateField globalF listF entity_id list_entry_id field_name
          (.scalar v) current_values overwrite list_id
        = updateField globalF listF entity_id list_entry_id field_name
          (.scalar .none) current_values overwrite list_id) := by
  refine ⟨?_, ⟨rfl, rfl, rfl, rfl, rfl⟩, ?_, ?_, ?_⟩
  · intro pv des h v hv
    refine formatDates_nonfalsy _ _ ?_ h v hv
    intro w hw
    have := (List.mem_filter.mp hw).2
    simpa using this
  · intro globalF listF entity_id list_entry_id field_name field_value
      current_values overwrite list_id ops h fid eid v leid hmem
    unfold updateField at h
    cases hres : getField globalF listF field_name list_id with
    | error e => rw [hres] at h; simp [error_bind] at h
    | ok resolved =>
      rw [hres, ok_bind] at h
      cases hchk : checkFieldValueType field_value resolved.1.value_type with
      | error e => rw [hchk] at h; simp [error_bind] at h
      | ok u =>
        rw [hchk, ok_bind] at h
        cases hfc : filterCurrent current_values resolved.2 with
        | error e => rw [hfc] at h; simp [error_bind] at h
        | ok current =>
          rw [hfc, ok_bind] at h
          by_cases hg : ((!current.isEmpty && !overwrite) = true)
          · rw [if_pos hg] at h
            simp [pure_eq_ok] at h
            subst h
            simp at hmem
          · rw [if_neg hg] at h
            cases hd : derefV1 resolved.2 with
            | error e => rw [hd] at h; simp [error_bind] at h
            | ok v1 =>
              rw [hd, ok_bind] at h
              by_cases hm2 : ((!v1.allows_multiple && field_value.isList) = true)
              · rw [if_pos hm2] at h
                simp [throw_eq_error, error_bind] at h
              · rw [if_neg hm2] at h
                simp only [pure_eq_ok, ok_bind] at h
                cases hfd : formatDates
                    (field_value.toEntryList.filter (fun v => !v.falsy)) with
                | error e => rw [hfd] at h; simp [error_bind] at h
                | ok entries =>
                  rw [hfd, ok_bind] at h
                  have hent : ∀ w ∈ entries, w.falsy = false := by
                    refine formatDates_nonfalsy _ _ ?_ hfd
                    intro w hw
                    simpa using (List.mem_filter.mp hw).2
                  have key : v.falsy = false := by
                    split at h
                    · simp [pure_eq_ok] at h
                      subst h
                      simp at hmem
                    · simp [pure_eq_ok] at h
                      subst h
                      rcases List.mem_append.mp hmem with hmem | hmem
                      · obtain ⟨fv', _, hfv⟩ := List.mem_map.mp hmem
                        simp at hfv
                      · obtain ⟨w, hw, hweq⟩ := List.mem_map.mp hmem
                        have hv := hent w (List.mem_filter.mp hw).1
                        injection hweq with h1 h2 h3 h4
                        rw [← h3]
                        exact hv
                  refine ⟨key, ?_, ?_, ?_⟩ <;>
                    · intro heq
                      rw [heq] at key
                      simp [Value.falsy] at key
  · intro entries hfalsy globalF listF entity_id list_entry_id field_name
      current_values overwrite list_id
    unfold updateField
    cases hres : getField globalF listF field_name list_id with
    | error e => rfl
    | ok resolved =>
      simp only [ok_bind]
      have hck : checkFieldValueType (.list entries) resolved.1.value_type
          = checkFieldValueType (.list []) resolved.1.value_type := by
        unfold checkFieldValueType
        cases FieldTypeMap resolved.1.value_type with
        | none => rfl
        | some ty => cases ty <;> rfl
      rw [hck]
      cases hc2 : checkFieldValueType (.list []) resolved.1.value_type with
      | error e => rfl
      | ok u => exact absurd hc2 (fun hh => (checkList_never_ok [] _ u hh).elim)
  · intro v hfalsy globalF listF entity_id list_entry_id field_name
      current_values overwrite list_id resolved hres hchk
    unfold updateField
    rw [hres]
    simp only [ok_bind]
    rw [hchk, checkScalar_none_ok v _ hchk]
    simp only [ok_bind]
    have hnone : Value.falsy .none = true := rfl
    simp [PyVal.isList, PyVal.toEntryList, List.filter_cons, hfalsy, hnone]

/-- C10 witness: the falsy scalar `0` supplied to the person-reference
field behaves exactly like `None`, and an all-falsy desired list behaves
exactly like the empty list. -/
theorem falsy_values_dropped_witness :
    (updateField exCatalog3 exNoListFields 7 Option.none "Owner"
        (.scalar (.int 0)) exCurrentOwner true Option.none
      = updateField exCatalog3 exNoListFields 7 Option.none "Owner"
        (.scalar .none) exCurrentOwner true Option.none)
    ∧ (updateField exCatalog3 exNoListFields 7 Option.none "Owner"
        (.list [.int 0, .str "", .bool false]) exCurrentOwner true Option.none
      = updateField exCatalog3 exNoListFields 7 Option.none "Owner"
        (.list []) exCurrentOwner true Option.none) :=
  ⟨falsy_values_dropped.2.2.2.2 (.int 0) rfl exCatalog3 exNoListFields 7
      Option.none "Owner" exCurrentOwner true Option.none
      (exV2Person, some exV1Person) rfl rfl,
   falsy_values_dropped.2.2.2.1 [.int 0, .str "", .bool false] (by decide)
      exCatalog3 exNoListFields 7 Option.none "Owner" exCurrentOwner true
      Option.none⟩

end AffinitySync
